import Mathlib

/-!
Shallow embedding of the job-tracking / file-resolution logic of the
youtube-downloader Flask app (src/youtube-downloader/app.py), together with
theorems settling the frozen claims about it.

Conventions of the embedding:
* Python strings are Lean `String`s; character-level operations work on
  `String.data` (Python indexes code points, as does `List Char`).
* Python dicts used as tables keyed by video id are association lists
  `List (String × α)`; dict assignment replaces in place or appends.
* The filesystem is passed explicitly: the download directory is a list of
  entries carrying name, regular-file flag, size, mtime and ctime.
* Python truthiness of optional values is modelled explicitly where the
  source relies on it (`or`-chains over byte counts, empty-string checks).
* Float arithmetic on progress percentages is modelled over `ℚ`; the
  one-decimal float formatting of view counts is modelled as exact
  half-to-even rounding of the rational value, which agrees with CPython
  for the inputs exercised here.
-/

/-- Prefix test on character lists (Python str.startswith on code points). -/
def isPre (p l : List Char) : Bool :=
  match p, l with
  | [], _ => true
  | _ :: _, [] => false
  | a :: ps, b :: ls => a == b && isPre ps ls

/-- Substring containment on character lists (Python `needle in hay`). -/
def hasSub (n h : List Char) : Bool :=
  isPre n h ||
    match h with
    | [] => false
    | _ :: t => hasSub n t

/-- Python `n in h` on strings. -/
def pyIn (n h : String) : Bool := hasSub n.data h.data

/-- Python `s.startswith(p)`. -/
def pyStarts (p s : String) : Bool := isPre p.data s.data

/-- ASCII lowering of one character (Python str.lower restricted to ASCII,
which covers the hostnames compared in the source). -/
def lowerChar (c : Char) : Char :=
  if 'A' ≤ c && c ≤ 'Z' then Char.ofNat (c.toNat + 32) else c

/-- Python `s.lower()` (ASCII model). -/
def pyLower (s : String) : String := ⟨s.data.map lowerChar⟩

/-- Last index of character c in a list, scanning with explicit offset. -/
def lastIdxAux (c : Char) : List Char → Nat → Option Nat
  | [], _ => none
  | a :: t, i =>
    match lastIdxAux c t (i + 1) with
    | some j => some j
    | none => if a == c then some i else none

/-- Last index of character c in a string's characters. -/
def lastIdx (c : Char) (l : List Char) : Option Nat := lastIdxAux c l 0

/-- Model of `os.path.join` for the two-component joins in the source. -/
def joinPath (d f : String) : String := d ++ "/" ++ f

/-- Model of `os.path.basename` (posix): everything after the last slash. -/
def basename (p : String) : String :=
  match lastIdx '/' p.data with
  | some i => ⟨p.data.drop (i + 1)⟩
  | none => p

/-- Model of `os.path.splitext` (posixpath): split at the last dot of the
final component, unless every character between the last slash and that dot
is itself a dot (leading-dot filenames keep their dots). -/
def splitext (p : String) : String × String :=
  let cs := p.data
  let sepIdx : Int :=
    match lastIdx '/' cs with
    | some i => (i : Int)
    | none => -1
  match lastIdx '.' cs with
  | none => (p, "")
  | some dot =>
    if sepIdx < (dot : Int) then
      let start := (sepIdx + 1).toNat
      if ((cs.drop start).take (dot - start)).any (fun ch => ch != '.') then
        (⟨cs.take dot⟩, ⟨cs.drop dot⟩)
      else (p, "")
    else (p, "")

/-- The configured download directory name (app.config DOWNLOAD_FOLDER). -/
def DOWNLOAD_FOLDER : String := "downloads"

/-- Characters removed by the sanitizer's regular expression. -/
def badChars : List Char := ['<', '>', ':', '"', '/', '\\', '|', '?', '*']

/-- Translation of sanitize_filename: strip the illegal characters, replace
spaces with underscores, truncate to 150 characters. -/
def sanitize_filename (filename : String) : String :=
  let s1 := filename.data.filter (fun c => !badChars.contains c)
  let s2 := s1.map (fun c => if c == ' ' then '_' else c)
  ⟨s2.take 150⟩

/-- Two-digit zero padding, Python format spec 02d for values in 0..59. -/
def pad2 (n : Nat) : String := if n < 10 then "0" ++ toString n else toString n

/-- Translation of format_duration; a falsy (zero) duration is "Unknown". -/
def format_duration (duration : Nat) : String :=
  if duration = 0 then "Unknown"
  else
    let hours := duration / 3600
    let minutes := (duration % 3600) / 60
    let seconds := duration % 60
    if hours > 0 then
      toString hours ++ ":" ++ pad2 minutes ++ ":" ++ pad2 seconds
    else
      toString minutes ++ ":" ++ pad2 seconds

/-- Half-to-even rounding of num/den to the nearest integer. -/
def roundHalfEven (num den : Nat) : Nat :=
  let q := num / den
  let r := num % den
  if 2 * r < den then q
  else if den < 2 * r then q + 1
  else if q % 2 = 0 then q else q + 1

/-- One-decimal rendering of num/den (Python format spec .1f; exact for the
decimally-exact quotients produced by the view-count thresholds). -/
def fmt1f (num den : Nat) : String :=
  let t := roundHalfEven (num * 10) den
  toString (t / 10) ++ "." ++ toString (t % 10)

/-- Translation of format_views; a falsy (zero) count is "Unknown". -/
def format_views (views : Nat) : String :=
  if views = 0 then "Unknown"
  else if views ≥ 1000000 then fmt1f views 1000000 ++ "M"
  else if views ≥ 1000 then fmt1f views 1000 ++ "K"
  else toString views

/-- Model of urllib.parse.urlparse output restricted to the fields the
source reads: network location, path, and the parse_qs view of the query
string as ordered key/value pairs (parse_qs drops blank values; get of a
key returns the first value). urlparse itself is stdlib, consumed as a
collaborator; any exception it may raise is converted to a null result by
the try/except in the source, so the embedding is total. -/
structure ParsedUrl where
  netloc : String
  path : String
  query : List (String × String)
  deriving DecidableEq

/-- The hostnames recognised by get_video_id. -/
def youtube_domains : List String :=
  ["youtube.com", "www.youtube.com", "m.youtube.com", "youtu.be"]

/-- Translation of get_video_id over the parsed URL: substring-match the
lowercased netloc against the known domains; short-link hosts take the path
past its first character, other matching hosts take the first v parameter. -/
def get_video_id (u : ParsedUrl) : Option String :=
  let domain := pyLower u.netloc
  if youtube_domains.any (fun d => pyIn d domain) then
    if pyIn "youtu.be" domain then
      if u.path == "" then none else some ⟨u.path.data.drop 1⟩
    else
      List.lookup "v" u.query
  else none

/-- One mutable progress record of the download_progress table. Fields the
Python dict acquires only later in the job's life are Options or carry the
written-at-initialisation defaults. -/
structure ProgressRecord where
  progress : ℚ
  status : String
  filename : Option String := none
  filepath : Option String := none
  downloaded_bytes : Nat := 0
  total_bytes : Nat := 0
  start_time : Nat := 0
  end_time : Option Nat := none
  error : Option String := none
  deriving DecidableEq

/-- One record of the download_metadata table. The fields written at
line 244 of the source are all present; filename is added only after file
discovery succeeds, hence an Option. -/
structure MetadataRecord where
  title : String
  download_time : String := ""
  url : String := ""
  quality : String := ""
  audio_only : Bool := false
  filename : Option String := none
  deriving DecidableEq

/-- Association-list model of an in-memory dict keyed by video id. -/
abbrev Table (α : Type) := List (String × α)

/-- Dict assignment: replace the value in place when the key exists,
append otherwise. -/
def setT {α : Type} (k : String) (v : α) : Table α → Table α
  | [] => [(k, v)]
  | (k', v') :: t => if k' == k then (k, v) :: t else (k', v') :: setT k v t

/-- Field update of an existing entry (dict[k][field] = x in the source);
absent keys are untouched (the source would raise KeyError, but every
call site has established membership first). -/
def updateT {α : Type} (k : String) (f : α → α) : Table α → Table α
  | [] => []
  | (k', v') :: t => if k' == k then (k', f v') :: t else (k', v') :: updateT k f t

/-- Dict deletion. -/
def delT {α : Type} (k : String) (t : Table α) : Table α :=
  t.filter (fun kv => !(kv.1 == k))

abbrev ProgTable := Table ProgressRecord
abbrev MetaTable := Table MetadataRecord

/-- Status values yt-dlp passes to a progress hook. -/
inductive HookStatus
  | downloading
  | finished
  | other
  deriving DecidableEq

/-- The fields of the hook dictionary the source reads. Optional byte
counts model keys that may be missing or None; Python also treats a
present 0 as falsy, which effectiveTotal reproduces. -/
structure HookDict where
  status : HookStatus
  total_bytes : Option Nat := none
  total_bytes_estimate : Option Nat := none
  downloaded_bytes : Option Nat := none
  filename : String := ""
  deriving DecidableEq

/-- Python expression total_bytes or total_bytes_estimate or 1: the first
truthy (present and non-zero) count, defaulting to 1. -/
def effectiveTotal (d : HookDict) : Nat :=
  match d.total_bytes with
  | some n =>
    if n = 0 then
      match d.total_bytes_estimate with
      | some m => if m = 0 then 1 else m
      | none => 1
    else n
  | none =>
    match d.total_bytes_estimate with
    | some m => if m = 0 then 1 else m
    | none => 1

/-- Python d.get(downloaded_bytes, 0). -/
def downloadedOf (d : HookDict) : Nat := d.downloaded_bytes.getD 0

/-- The percentage the hook writes: (downloaded / total) * 100. -/
def hookPercent (d : HookDict) : ℚ :=
  ((downloadedOf d : ℚ) / (effectiveTotal d : ℚ)) * 100

/-- Translation of progress_hook: ignore unknown ids; on a downloading
tick write percentage, status, downloaded and total bytes; on finished
write 100 / processing / the reported filename. -/
def progress_hook (d : HookDict) (video_id : String) (t : ProgTable) : ProgTable :=
  match List.lookup video_id t with
  | none => t
  | some _ =>
    match d.status with
    | .downloading =>
      updateT video_id (fun r =>
        { r with
          progress := hookPercent d
          status := "downloading"
          downloaded_bytes := downloadedOf d
          total_bytes := effectiveTotal d }) t
    | .finished =>
      updateT video_id (fun r =>
        { r with progress := 100, status := "processing", filepath := some d.filename }) t
    | .other => t

/-- The record download_video installs before invoking the collaborator. -/
def initialProgress (startTime : Nat) : ProgressRecord :=
  { progress := 0
    filename := none
    filepath := none
    status := "starting"
    start_time := startTime }

/-- One entry of the download directory listing, with the stat fields the
source consults. isFile is os.path.isfile; size is os.path.getsize (also
defined for directories, matching the source's exists-plus-getsize check
on the expected path). -/
structure DiskEntry where
  name : String
  isFile : Bool
  size : Nat
  mtime : Nat
  ctime : Nat := 0
  deriving DecidableEq

/-- Earliest-listed entry of maximal mtime, matching a stable descending
sort by mtime followed by taking the head. -/
def maxByMtime : List DiskEntry → Option DiskEntry
  | [] => none
  | e :: rest => some (rest.foldl (fun b x => if b.mtime < x.mtime then x else b) e)

/-- The filename download_video predicts for the output: the collaborator's
prepared name, its extension replaced by .mp3 when audio-only was
requested. The prepared name is a basename inside DOWNLOAD_FOLDER, per the
outtmpl option. -/
def expectedOutput (expectedRaw : String) (audio_only : Bool) : String :=
  if audio_only then (splitext expectedRaw).1 ++ ".mp3" else expectedRaw

/-- Translation of the file-discovery cascade of download_video
(lines 255-298): the expected name if present and non-empty; else the
first listed non-empty regular file containing the video id; else the
most recently modified non-empty regular file. Returns the path joined
under DOWNLOAD_FOLDER, as the source stores it. -/
def findActualFile (dir : List DiskEntry) (expectedName video_id : String) :
    Option String :=
  if dir.any (fun e => e.name == expectedName && 0 < e.size) then
    some (joinPath DOWNLOAD_FOLDER expectedName)
  else
    match dir.find? (fun e => e.isFile && 0 < e.size && pyIn video_id e.name) with
    | some e => some (joinPath DOWNLOAD_FOLDER e.name)
    | none =>
      match maxByMtime (dir.filter (fun e => e.isFile && 0 < e.size)) with
      | some e => some (joinPath DOWNLOAD_FOLDER e.name)
      | none => none

/-- Translation of lines 300-318 of download_video: on a found file mark
the progress record completed with resolved filename/filepath and end
time and record the filename in the metadata table; otherwise mark the
progress record as an error. -/
def applyDiscovery (video_id : String) (found : Option String) (endTime : Nat)
    (prog : ProgTable) (meta : MetaTable) : ProgTable × MetaTable :=
  match found with
  | some actual =>
    let final_filename := basename actual
    (updateT video_id (fun r =>
      { r with
        filename := some final_filename
        filepath := some actual
        status := "completed"
        end_time := some endTime }) prog,
     updateT video_id (fun m => { m with filename := some final_filename }) meta)
  | none =>
    (updateT video_id (fun r =>
      { r with status := "error", error := some "Download completed but file not found" }) prog,
     meta)

/-- The fixed quality ladder of download_video. -/
def quality_map : List (String × String) :=
  [("144p", "bestvideo[height<=144]+bestaudio/best[height<=144]"),
   ("240p", "bestvideo[height<=240]+bestaudio/best[height<=240]"),
   ("360p", "bestvideo[height<=360]+bestaudio/best[height<=360]"),
   ("480p", "bestvideo[height<=480]+bestaudio/best[height<=480]"),
   ("720p", "bestvideo[height<=720]+bestaudio/best[height<=720]"),
   ("1080p", "bestvideo[height<=1080]+bestaudio/best[height<=1080]"),
   ("highest", "bestvideo+bestaudio/best")]

/-- The audio postprocessor directive attached for audio-only downloads. -/
structure AudioPost where
  key : String
  preferredcodec : String
  preferredquality : String
  deriving DecidableEq

/-- Translation of the format-directive construction (lines 209-228):
audio-only selects best audio plus an mp3/192 extraction postprocessor;
otherwise the quality label is looked up in the ladder with the
highest-available selector as default. -/
def formatSelection (audio_only : Bool) (quality : String) :
    String × Option AudioPost :=
  if audio_only then
    ("bestaudio/best", some ⟨"FFmpegExtractAudio", "mp3", "192"⟩)
  else
    ((List.lookup quality quality_map).getD "bestvideo+bestaudio/best", none)

/-- Python truthiness of an optional string (None and "" are falsy). -/
def pyTruthyStr : Option String → Bool
  | some s => !(s == "")
  | none => false

/-- Response shape of the progress endpoint. -/
inductive ProgResponse
  | snapshot (r : ProgressRecord)
  | sentinel
  deriving DecidableEq

/-- Translation of the progress endpoint (lines 384-399): copy the stored
record; when it says completed but the resolved file is gone from the
download folder, downgrade the copy to an error; unknown ids yield the
not-found sentinel. The stored table is returned unchanged alongside, as
the source mutates only the copy. disk lists the names present in
DOWNLOAD_FOLDER. -/
def progressEndpoint (video_id : String) (prog : ProgTable) (disk : List String) :
    ProgResponse × ProgTable :=
  match List.lookup video_id prog with
  | none => (ProgResponse.sentinel, prog)
  | some r =>
    let progress_data :=
      if r.status == "completed" && pyTruthyStr r.filename then
        match r.filename with
        | some fn =>
          if disk.contains fn then r
          else { r with status := "error", error := some "Downloaded file not found" }
        | none => r
      else r
    (ProgResponse.snapshot progress_data, prog)

/-- Response shape of the download endpoint. -/
inductive DlResponse
  | errResp (msg : String)
  | okResp (video_id : String)
  deriving DecidableEq

/-- Translation of the download endpoint (lines 356-382): a missing URL
answers with an error, and a falsy extracted id does too, before any job
state is touched. The source's test is Python truthiness (the line reads
as: not video_id), so it rejects both the null result and the empty
string, which get_video_id returns for a short-link URL whose path is a
bare slash. Otherwise prior state for the id is discarded and the
background job is launched (the job itself is modelled by initialProgress,
progress_hook and applyDiscovery). -/
def downloadEndpoint (url : Option ParsedUrl) (prog : ProgTable) (meta : MetaTable) :
    DlResponse × ProgTable × MetaTable :=
  match url with
  | none => (DlResponse.errResp "No URL provided", prog, meta)
  | some u =>
    match get_video_id u with
    | none => (DlResponse.errResp "Could not extract video ID from URL", prog, meta)
    | some vid =>
      if vid == "" then
        (DlResponse.errResp "Could not extract video ID from URL", prog, meta)
      else (DlResponse.okResp vid, delT vid prog, delT vid meta)

/-- Response shape of the file-serving endpoint. -/
inductive FileResponse
  | sent (filepath download_name : String)
  | jsonErr (code : Nat) (msg : String)
  deriving DecidableEq

/-- Fallback scan for a missing metadata entry (lines 412-434): non-empty
regular files younger than 300 seconds, ordered by ascending age, first
taken; equivalently the earliest-listed entry of maximal ctime among the
recent ones. -/
def recentFallback (dir : List DiskEntry) (now : Nat) : Option DiskEntry :=
  let recent := dir.filter (fun e => e.isFile && now - e.ctime < 300 && 0 < e.size)
  match recent with
  | [] => none
  | e :: rest => some (rest.foldl (fun b x => if b.ctime < x.ctime then x else b) e)

/-- Body of download_file once a metadata record is at hand (lines
443-523): traversal check on the recorded filename, then serve it when
present and non-empty, else serve the first similar file (id substring or
shared 20-character stem), else 404. An absent filename key would raise in
the source; the framework turns that into a 500, modelled explicitly. -/
def serveFile (video_id : String) (meta : MetaTable) (m : MetadataRecord)
    (dir : List DiskEntry) : FileResponse × MetaTable :=
  match m.filename with
  | none => (FileResponse.jsonErr 500 "Internal Server Error", meta)
  | some filename =>
    let filepath := joinPath DOWNLOAD_FOLDER filename
    if pyIn ".." filename || pyStarts "/" filename then
      (FileResponse.jsonErr 400 "Invalid filename", meta)
    else if dir.any (fun e => e.name == filename && 0 < e.size) then
      let safe_title := sanitize_filename m.title
      let file_extension := (splitext filename).2
      (FileResponse.sent filepath (safe_title ++ file_extension), meta)
    else
      let stem20 : String := ⟨((splitext filename).1.data.take 20)⟩
      match dir.find? (fun e =>
          e.isFile && 0 < e.size && (pyIn video_id e.name || pyStarts stem20 e.name)) with
      | some e =>
        (FileResponse.sent (joinPath DOWNLOAD_FOLDER e.name) e.name,
         updateT video_id (fun mm => { mm with filename := some e.name }) meta)
      | none => (FileResponse.jsonErr 404 "File not found", meta)

/-- Translation of the file-serving endpoint (lines 401-523): look up the
metadata record, synthesising one from the most recent download when it is
missing, then serve through serveFile. -/
def download_file (video_id : String) (meta : MetaTable) (dir : List DiskEntry)
    (now : Nat) : FileResponse × MetaTable :=
  match List.lookup video_id meta with
  | some m => serveFile video_id meta m dir
  | none =>
    match recentFallback dir now with
    | none => (FileResponse.jsonErr 404 "Download not found or expired", meta)
    | some e =>
      let synth : MetadataRecord :=
        { title := "Downloaded Video", filename := some e.name }
      serveFile video_id (setT video_id synth meta) synth dir

/-- Updating a key and then looking it up yields the mapped value. -/
theorem lookup_updateT {α : Type} (k : String) (f : α → α) (t : Table α) :
    List.lookup k (updateT k f t) = (List.lookup k t).map f := by
  induction t with
  | nil => rfl
  | cons kv rest ih =>
    obtain ⟨k', v'⟩ := kv
    by_cases h : k' = k
    · subst h; simp [updateT, List.lookup]
    · have h1 : (k' == k) = false := by simpa using h
      have h2 : (k == k') = false := by simpa using Ne.symm h
      simp [updateT, List.lookup, h1, h2, ih]

/-- C8: for every input string, sanitize_filename removes every occurrence of
the characters stripped by its regular expression, replaces every space with
an underscore, and returns at most 150 characters. -/
theorem c8_sanitize_filename_spec (s : String) :
    (∀ c, c ∈ (sanitize_filename s).data → (c ∉ badChars ∧ c ≠ ' ')) ∧
    (sanitize_filename s).length ≤ 150 := by
  constructor
  · intro c hc
    have hc' : c ∈ (s.data.filter (fun c => !badChars.contains c)).map
        (fun c => if c == ' ' then '_' else c) := List.take_subset _ _ hc
    rcases List.mem_map.mp hc' with ⟨a, ha, rfl⟩
    have hp : (!badChars.contains a) = true := (List.mem_filter.mp ha).2
    have hnb : a ∉ badChars := by simpa using hp
    by_cases hsp : a = ' '
    · subst hsp; simp [badChars]
    · have hbe : (a == ' ') = false := by simpa using hsp
      simp only [hbe, Bool.false_eq_true, if_false]
      exact ⟨hnb, hsp⟩
  · exact List.length_take_le _ _

/-- Witness for C8 at the concrete input "a b". -/
theorem c8_witness :
    (('a' ∉ badChars ∧ 'a' ≠ ' ') ∧ (sanitize_filename "a b").length ≤ 150) :=
  ⟨(c8_sanitize_filename_spec "a b").1 'a' (by decide),
   (c8_sanitize_filename_spec "a b").2⟩

/-- C10: a progress-callback tick for an identifier absent from the progress
table returns without modifying the table; ticks never create a record. The
callback never references the metadata table at all, so that table is
untouched by construction. -/
theorem c10_hook_unknown_id_noop (d : HookDict) (video_id : String) (prog : ProgTable)
    (h : List.lookup video_id prog = none) :
    progress_hook d video_id prog = prog := by
  unfold progress_hook
  rw [h]

/-- Witness for C10 on the empty table. -/
theorem c10_witness :
    progress_hook { status := .downloading } "x" [] = [] :=
  c10_hook_unknown_id_noop _ _ _ rfl

/-- C9: the pure formatters at the claimed concrete inputs: durations 0, 45
and 3661, and view counts 500, 1500 and 2000000. -/
theorem c9_formatters_concrete :
    format_duration 0 = "Unknown" ∧ format_duration 45 = "0:45" ∧
    format_duration 3661 = "1:01:01" ∧ format_views 500 = "500" ∧
    format_views 1500 = "1.5K" ∧ format_views 2000000 = "2.0M" := by
  refine ⟨rfl, ?_, ?_, rfl, ?_, ?_⟩ <;> decide

/-- C7: audio-only requests select best audio plus an mp3/192 extraction
postprocessor; each label of the fixed ladder maps to its height-capped
selector; any label outside the ladder (and also "highest" itself) yields
the highest-available selector. -/
theorem c7_format_directive (q : String) :
    formatSelection true q = ("bestaudio/best", some ⟨"FFmpegExtractAudio", "mp3", "192"⟩) ∧
    formatSelection false "144p" = ("bestvideo[height<=144]+bestaudio/best[height<=144]", none) ∧
    formatSelection false "240p" = ("bestvideo[height<=240]+bestaudio/best[height<=240]", none) ∧
    formatSelection false "360p" = ("bestvideo[height<=360]+bestaudio/best[height<=360]", none) ∧
    formatSelection false "480p" = ("bestvideo[height<=480]+bestaudio/best[height<=480]", none) ∧
    formatSelection false "720p" = ("bestvideo[height<=720]+bestaudio/best[height<=720]", none) ∧
    formatSelection false "1080p" = ("bestvideo[height<=1080]+bestaudio/best[height<=1080]", none) ∧
    (q ∉ ["144p", "240p", "360p", "480p", "720p", "1080p"] →
      formatSelection false q = ("bestvideo+bestaudio/best", none)) := by
  refine ⟨rfl, rfl, rfl, rfl, rfl, rfl, rfl, ?_⟩
  intro h
  simp only [List.mem_cons, List.not_mem_nil, or_false, not_or] at h
  obtain ⟨h1, h2, h3, h4, h5, h6⟩ := h
  by_cases hq : q = "highest"
  · subst hq; decide
  · have e1 : (q == "144p") = false := by simpa using h1
    have e2 : (q == "240p") = false := by simpa using h2
    have e3 : (q == "360p") = false := by simpa using h3
    have e4 : (q == "480p") = false := by simpa using h4
    have e5 : (q == "720p") = false := by simpa using h5
    have e6 : (q == "1080p") = false := by simpa using h6
    have e7 : (q == "highest") = false := by simpa using hq
    simp [formatSelection, quality_map, List.lookup, e1, e2, e3, e4, e5, e6, e7]

/-- Witness for C7 at the out-of-ladder label "4k". -/
theorem c7_witness :
    formatSelection false "4k" = ("bestvideo+bestaudio/best", none) :=
  (c7_format_directive "4k").2.2.2.2.2.2.2 (by decide)

/-- C6: when no identifier can be resolved from the submitted URL, that is
when the extracted id is Python-falsy (the null result or the empty string
a bare-slash short link produces), the download endpoint answers with an
error and both tables are returned exactly as they were: no record is
created or deleted. -/
theorem c6_no_job_on_bad_url (u : ParsedUrl) (prog : ProgTable) (meta : MetaTable)
    (h : pyTruthyStr (get_video_id u) = false) :
    downloadEndpoint (some u) prog meta =
      (DlResponse.errResp "Could not extract video ID from URL", prog, meta) := by
  have hred : downloadEndpoint (some u) prog meta =
      (match get_video_id u with
       | none => (DlResponse.errResp "Could not extract video ID from URL", prog, meta)
       | some vid =>
         if vid == "" then
           (DlResponse.errResp "Could not extract video ID from URL", prog, meta)
         else (DlResponse.okResp vid, delT vid prog, delT vid meta)) := rfl
  rw [hred]
  cases hv : get_video_id u with
  | none => rfl
  | some vid =>
    rw [hv] at h
    have hvid : vid = "" := by simpa [pyTruthyStr] using h
    simp [hvid]

/-- Witness for C6: a bare-slash short link that extracts the falsy empty
id, and a non-matching host, both with non-empty progress tables. -/
theorem c6_witness :
    downloadEndpoint (some ⟨"youtu.be", "/", []⟩) [("", initialProgress 0)] [] =
      (DlResponse.errResp "Could not extract video ID from URL",
       [("", initialProgress 0)], []) ∧
    downloadEndpoint (some ⟨"example.com", "/watch", [("v", "abc")]⟩)
        [("abc", initialProgress 0)] [] =
      (DlResponse.errResp "Could not extract video ID from URL",
       [("abc", initialProgress 0)], []) :=
  ⟨c6_no_job_on_bad_url _ _ _ (by decide),
   c6_no_job_on_bad_url _ _ _ (by decide)⟩

/-- C5: polling an identifier whose stored record is completed but whose
resolved file is gone from the download folder yields a snapshot downgraded
to error while the stored table, and hence the stored status, progress and
downloaded-bytes fields, is unchanged. -/
theorem c5_poll_completed_missing_file (video_id : String) (prog : ProgTable)
    (disk : List String) (r : ProgressRecord) (fn : String)
    (hr : List.lookup video_id prog = some r)
    (hst : r.status = "completed")
    (hfn : r.filename = some fn)
    (hne : fn ≠ "")
    (hmiss : fn ∉ disk) :
    progressEndpoint video_id prog disk =
      (ProgResponse.snapshot
        { r with status := "error", error := some "Downloaded file not found" }, prog) ∧
    List.lookup video_id (progressEndpoint video_id prog disk).2 = some r := by
  have hmain : progressEndpoint video_id prog disk =
      (ProgResponse.snapshot
        { r with status := "error", error := some "Downloaded file not found" }, prog) := by
    unfold progressEndpoint
    rw [hr]
    have hb1 : (r.status == "completed") = true := by simpa using hst
    have hb2 : pyTruthyStr (some fn) = true := by simpa [pyTruthyStr] using hne
    simp [hb1, hfn, hb2, hmiss]
  exact ⟨hmain, by rw [hmain]; exact hr⟩

/-- Witness for C5: a completed record for a file absent from the folder. -/
theorem c5_witness :
    progressEndpoint "x"
        [("x", { progress := 100, status := "completed", filename := some "f.mp4" })] [] =
      (ProgResponse.snapshot
        { progress := 100, status := "error", filename := some "f.mp4",
          error := some "Downloaded file not found" },
       [("x", { progress := 100, status := "completed", filename := some "f.mp4" })]) ∧
    List.lookup "x"
        (progressEndpoint "x"
          [("x", { progress := 100, status := "completed", filename := some "f.mp4" })] []).2 =
      some { progress := 100, status := "completed", filename := some "f.mp4" } :=
  c5_poll_completed_missing_file "x"
    [("x", { progress := 100, status := "completed", filename := some "f.mp4" })] []
    { progress := 100, status := "completed", filename := some "f.mp4" } "f.mp4"
    rfl rfl rfl (by decide) (by decide)

/-- The effective total the hook divides by is always positive. -/
theorem effectiveTotal_pos (d : HookDict) : 0 < effectiveTotal d := by
  unfold effectiveTotal
  rcases d.total_bytes with _ | n <;> rcases d.total_bytes_estimate with _ | m <;>
    simp <;> split_ifs <;> omega

/-- C2 counterexample: a collaborator tick reporting 150 downloaded bytes
against a total of 100 writes progress 150, violating the claimed upper
bound of 100. -/
theorem c2_progress_exceeds_100 :
    (List.lookup "dQw4w9WgXcQ"
        (progress_hook
          { status := .downloading, total_bytes := some 100, downloaded_bytes := some 150 }
          "dQw4w9WgXcQ" [("dQw4w9WgXcQ", initialProgress 0)])).map ProgressRecord.progress =
      some 150 ∧ ¬ ((150 : ℚ) ≤ 100) := by
  constructor
  · show some (hookPercent _) = _
    norm_num [hookPercent, downloadedOf, effectiveTotal]
  · norm_num

/-- C2 amended: every progress write is non-negative; the orchestrator's
initial write is 0 and a finished tick writes exactly 100; a downloading
tick writes (downloaded / effective total) * 100, which stays at most 100
whenever the reported downloaded bytes do not exceed the effective total,
but not in general. -/
theorem c2_progress_bounds_amended (d : HookDict) (video_id : String)
    (prog : ProgTable) (startTime : Nat) :
    (initialProgress startTime).progress = 0 ∧
    (0 : ℚ) ≤ hookPercent d ∧
    (downloadedOf d ≤ effectiveTotal d → hookPercent d ≤ 100) ∧
    (∀ r₀, List.lookup video_id prog = some r₀ → d.status = .downloading →
      List.lookup video_id (progress_hook d video_id prog) =
        some { r₀ with
               progress := hookPercent d, status := "downloading",
               downloaded_bytes := downloadedOf d, total_bytes := effectiveTotal d }) ∧
    (∀ r₀, List.lookup video_id prog = some r₀ → d.status = .finished →
      List.lookup video_id (progress_hook d video_id prog) =
        some { r₀ with
               progress := 100, status := "processing",
               filepath := some d.filename }) := by
  refine ⟨rfl, ?_, ?_, ?_, ?_⟩
  · unfold hookPercent
    positivity
  · intro h
    have htot : (0 : ℚ) < (effectiveTotal d : ℚ) := by
      exact_mod_cast effectiveTotal_pos d
    have hdiv : (downloadedOf d : ℚ) / (effectiveTotal d : ℚ) ≤ 1 :=
      (div_le_one htot).mpr (by exact_mod_cast h)
    have := mul_le_mul_of_nonneg_right hdiv (by norm_num : (0 : ℚ) ≤ 100)
    simpa [hookPercent] using this
  · intro r₀ hr hst
    unfold progress_hook
    rw [hr, hst]
    simp [lookup_updateT, hr]
  · intro r₀ hr hst
    unfold progress_hook
    rw [hr, hst]
    simp [lookup_updateT, hr]

/-- Witness for the amended C2 at a tick of 50 bytes out of 200. -/
theorem c2_amended_witness :
    ((0 : ℚ) ≤ hookPercent { status := .downloading, total_bytes := some 200,
                             downloaded_bytes := some 50 } ∧
      hookPercent { status := .downloading, total_bytes := some 200,
                    downloaded_bytes := some 50 } ≤ 100) ∧
    List.lookup "x"
        (progress_hook
          { status := .downloading, total_bytes := some 200, downloaded_bytes := some 50 }
          "x" [("x", initialProgress 7)]) =
      some { initialProgress 7 with
             progress := hookPercent { status := .downloading, total_bytes := some 200,
                                       downloaded_bytes := some 50 },
             status := "downloading", downloaded_bytes := 50, total_bytes := 200 } :=
  ⟨⟨(c2_progress_bounds_amended { status := .downloading, total_bytes := some 200,
                                  downloaded_bytes := some 50 }
      "x" [("x", initialProgress 7)] 7).2.1,
    (c2_progress_bounds_amended { status := .downloading, total_bytes := some 200,
                                  downloaded_bytes := some 50 }
      "x" [("x", initialProgress 7)] 7).2.2.1 (by decide)⟩,
   (c2_progress_bounds_amended { status := .downloading, total_bytes := some 200,
                                 downloaded_bytes := some 50 }
     "x" [("x", initialProgress 7)] 7).2.2.2.1 (initialProgress 7) rfl rfl⟩

/-- A left part of a list that starts another list starts it as well. -/
theorem isPre_append_left (p q l : List Char) (h : isPre (p ++ q) l = true) :
    isPre p l = true := by
  induction p generalizing l with
  | nil => rfl
  | cons a ps ih =>
    cases l with
    | nil => simp [isPre] at h
    | cons b ls =>
      simp only [List.cons_append, isPre, Bool.and_eq_true] at h ⊢
      exact ⟨h.1, ih ls h.2⟩

/-- A substring check succeeding on an extended needle succeeds on its left
part. -/
theorem hasSub_append_left (p q : List Char) (h : List Char)
    (hh : hasSub (p ++ q) h = true) : hasSub p h = true := by
  induction h with
  | nil =>
    cases p with
    | nil => decide
    | cons a ps => simp [hasSub, isPre] at hh
  | cons b t ih =>
    cases hp : isPre (p ++ q) (b :: t) with
    | true =>
      have h1 := isPre_append_left p q _ hp
      rw [hasSub, h1]
      rfl
    | false =>
      rw [hasSub, hp] at hh
      simp only [Bool.false_or] at hh
      have h2 := ih hh
      rw [hasSub, h2]
      simp

/-- A filename containing the slash-terminated parent marker also contains
the two-dot pattern the source's traversal check looks for. -/
theorem pyIn_dotdot (fn : String) (h : pyIn "../" fn = true) :
    pyIn ".." fn = true := by
  unfold pyIn at h ⊢
  have heq : ("../" : String).data = (".." : String).data ++ ['/'] := rfl
  rw [heq] at h
  exact hasSub_append_left _ _ _ h

/-- C4: when the recorded filename for an identifier contains the parent
marker or begins with a root slash, the file-serving endpoint answers HTTP
400 with a JSON error and sends no file, whatever the directory holds. -/
theorem c4_traversal_rejected (video_id : String) (meta : MetaTable)
    (dir : List DiskEntry) (now : Nat) (m : MetadataRecord) (fn : String)
    (hm : List.lookup video_id meta = some m)
    (hfn : m.filename = some fn)
    (hbad : pyIn "../" fn = true ∨ pyStarts "/" fn = true) :
    download_file video_id meta dir now =
      (FileResponse.jsonErr 400 "Invalid filename", meta) := by
  have hchk : (pyIn ".." fn || pyStarts "/" fn) = true := by
    rcases hbad with h | h
    · simp [pyIn_dotdot fn h]
    · simp [h]
  have hred : download_file video_id meta dir now = serveFile video_id meta m dir := by
    unfold download_file
    rw [hm]
  rw [hred]
  unfold serveFile
  rw [hfn]
  simp [hchk]

/-- Witness for C4 with a traversal filename that exists in the listing. -/
theorem c4_witness :
    download_file "x" [("x", { title := "t", filename := some "../secret" })]
        [{ name := "../secret", isFile := true, size := 5, mtime := 0 }] 0 =
      (FileResponse.jsonErr 400 "Invalid filename",
       [("x", { title := "t", filename := some "../secret" })]) :=
  c4_traversal_rejected "x" _ _ 0 { title := "t", filename := some "../secret" }
    "../secret" rfl rfl (Or.inl (by decide))

/-- C3: a URL whose lowercased host matches none of the known hostnames
yields the null result; a matching non-short-link host yields the first
value of the v query parameter, null when absent; a short-link host with a
single-segment path yields that segment. The embedding is a total function,
reflecting the try/except in the source that converts any parse exception
into the null result. -/
theorem c3_get_video_id_spec (u : ParsedUrl) :
    (youtube_domains.any (fun d => pyIn d (pyLower u.netloc)) = false →
      get_video_id u = none) ∧
    (youtube_domains.any (fun d => pyIn d (pyLower u.netloc)) = true →
      pyIn "youtu.be" (pyLower u.netloc) = false →
      get_video_id u = List.lookup "v" u.query) ∧
    (∀ vid, pyIn "youtu.be" (pyLower u.netloc) = true →
      u.path = "/" ++ vid → pyIn "/" vid = false →
      get_video_id u = some vid) := by
  refine ⟨?_, ?_, ?_⟩
  · intro h
    simp [get_video_id, h]
  · intro h1 h2
    simp [get_video_id, h1, h2]
  · intro vid h1 hpath hseg
    have hany : youtube_domains.any (fun d => pyIn d (pyLower u.netloc)) = true :=
      List.any_eq_true.mpr ⟨"youtu.be", by simp [youtube_domains], h1⟩
    have hdata : u.path.data = '/' :: vid.data := by
      rw [hpath]
      simp [String.data_append]
    have hne : (u.path == "") = false := by
      have : u.path ≠ "" := by
        intro hc
        rw [hc] at hdata
        exact absurd hdata (by simp)
      simpa using this
    simp only [get_video_id, hany, h1, if_true, hne, Bool.false_eq_true, if_false]
    simp [hdata]

/-- Witness for C3 on a short link and a foreign host. -/
theorem c3_witness :
    get_video_id ⟨"youtu.be", "/dQw4w9WgXcQ", []⟩ = some "dQw4w9WgXcQ" ∧
    get_video_id ⟨"example.com", "/watch", [("v", "abc")]⟩ = none :=
  ⟨(c3_get_video_id_spec _).2.2 "dQw4w9WgXcQ" (by decide) rfl (by decide),
   (c3_get_video_id_spec _).1 (by decide)⟩

/-- The mtime-maximising fold returns the seed or a list element. -/
theorem foldl_maxMtime_mem (l : List DiskEntry) (e : DiskEntry) :
    l.foldl (fun b x => if b.mtime < x.mtime then x else b) e ∈ e :: l := by
  induction l generalizing e with
  | nil => simp
  | cons a t ih =>
    simp only [List.foldl_cons]
    have h := ih (if e.mtime < a.mtime then a else e)
    rcases List.mem_cons.mp h with h1 | h1
    · rw [h1]
      by_cases hc : e.mtime < a.mtime
      · simp [hc]
      · simp [hc]
    · exact List.mem_cons.mpr (Or.inr (List.mem_cons.mpr (Or.inr h1)))

/-- The mtime-maximising fold never goes below its seed. -/
theorem foldl_maxMtime_seed_le (l : List DiskEntry) (e : DiskEntry) :
    e.mtime ≤ (l.foldl (fun b y => if b.mtime < y.mtime then y else b) e).mtime := by
  induction l generalizing e with
  | nil => simp
  | cons a t ih =>
    simp only [List.foldl_cons]
    have hstep : e.mtime ≤ (if e.mtime < a.mtime then a else e).mtime := by
      split <;> omega
    exact le_trans hstep (ih _)

/-- The mtime-maximising fold dominates every element it saw. -/
theorem foldl_maxMtime_ge (l : List DiskEntry) (e x : DiskEntry)
    (hx : x ∈ e :: l) :
    x.mtime ≤ (l.foldl (fun b y => if b.mtime < y.mtime then y else b) e).mtime := by
  induction l generalizing e with
  | nil =>
    simp only [List.mem_cons, List.not_mem_nil, or_false] at hx
    simp [List.foldl_nil, hx]
  | cons a t ih =>
    simp only [List.foldl_cons]
    rcases List.mem_cons.mp hx with h1 | h1
    · subst h1
      have hstep : x.mtime ≤ (if x.mtime < a.mtime then a else x).mtime := by
        split <;> omega
      exact le_trans hstep (foldl_maxMtime_seed_le t _)
    · rcases List.mem_cons.mp h1 with h2 | h2
      · subst h2
        have hstep : x.mtime ≤ (if e.mtime < x.mtime then x else e).mtime := by
          split <;> omega
        exact le_trans hstep (foldl_maxMtime_seed_le t _)
      · exact ih _ (List.mem_cons.mpr (Or.inr h2))

/-- maxByMtime returns a member of maximal modification time. -/
theorem maxByMtime_spec (l : List DiskEntry) (e : DiskEntry)
    (h : maxByMtime l = some e) : e ∈ l ∧ ∀ x ∈ l, x.mtime ≤ e.mtime := by
  cases l with
  | nil => simp [maxByMtime] at h
  | cons a t =>
    simp only [maxByMtime, Option.some.injEq] at h
    subst h
    exact ⟨foldl_maxMtime_mem t a, fun x hx => foldl_maxMtime_ge t a x hx⟩

/-- C1: after the collaborator returns, the orchestrator finds the output
file by trying, first match winning: the predicted filename (extension
swapped to .mp3 for audio-only) when present and non-empty; else the first
non-empty file whose name contains the identifier; else the most recently
modified non-empty file. A found file marks the record completed with
resolved filename and filepath and records the filename in the metadata
table; no file marks the record as an error. -/
theorem c1_download_file_discovery (dir : List DiskEntry) (expectedRaw video_id : String)
    (audio_only : Bool) (prog : ProgTable) (meta : MetaTable) (endTime : Nat) :
    (dir.any (fun e => e.name == expectedOutput expectedRaw audio_only && 0 < e.size) = true →
      findActualFile dir (expectedOutput expectedRaw audio_only) video_id =
        some (joinPath DOWNLOAD_FOLDER (expectedOutput expectedRaw audio_only))) ∧
    (dir.any (fun e => e.name == expectedOutput expectedRaw audio_only && 0 < e.size) = false →
      ∀ e, dir.find? (fun e => e.isFile && 0 < e.size && pyIn video_id e.name) = some e →
        findActualFile dir (expectedOutput expectedRaw audio_only) video_id =
          some (joinPath DOWNLOAD_FOLDER e.name) ∧
        e ∈ dir ∧ e.isFile = true ∧ 0 < e.size ∧ pyIn video_id e.name = true) ∧
    (dir.any (fun e => e.name == expectedOutput expectedRaw audio_only && 0 < e.size) = false →
      dir.find? (fun e => e.isFile && 0 < e.size && pyIn video_id e.name) = none →
      ∀ e, maxByMtime (dir.filter (fun e => e.isFile && 0 < e.size)) = some e →
        findActualFile dir (expectedOutput expectedRaw audio_only) video_id =
          some (joinPath DOWNLOAD_FOLDER e.name) ∧
        e ∈ dir ∧ e.isFile = true ∧ 0 < e.size ∧
        (∀ x ∈ dir, x.isFile = true → 0 < x.size → x.mtime ≤ e.mtime)) ∧
    (∀ p r₀, findActualFile dir (expectedOutput expectedRaw audio_only) video_id = some p →
      List.lookup video_id prog = some r₀ →
      List.lookup video_id
          (applyDiscovery video_id
            (findActualFile dir (expectedOutput expectedRaw audio_only) video_id)
            endTime prog meta).1 =
        some { r₀ with
               filename := some (basename p), filepath := some p,
               status := "completed", end_time := some endTime } ∧
      List.lookup video_id
          (applyDiscovery video_id
            (findActualFile dir (expectedOutput expectedRaw audio_only) video_id)
            endTime prog meta).2 =
        (List.lookup video_id meta).map
          (fun m => { m with filename := some (basename p) })) ∧
    (findActualFile dir (expectedOutput expectedRaw audio_only) video_id = none →
      ∀ r₀, List.lookup video_id prog = some r₀ →
      List.lookup video_id
          (applyDiscovery video_id
            (findActualFile dir (expectedOutput expectedRaw audio_only) video_id)
            endTime prog meta).1 =
        some { r₀ with
               status := "error",
               error := some "Download completed but file not found" }) := by
  refine ⟨?_, ?_, ?_, ?_, ?_⟩
  · intro h
    simp [findActualFile, h]
  · intro ha e hf
    have hp := List.find?_some hf
    simp only [Bool.and_eq_true, decide_eq_true_eq] at hp
    refine ⟨?_, List.mem_of_find?_eq_some hf, hp.1.1, hp.1.2, hp.2⟩
    simp [findActualFile, ha, hf]
  · intro ha hf e hm
    obtain ⟨hmem, hmax⟩ := maxByMtime_spec _ _ hm
    have hmem' := List.mem_filter.mp hmem
    have hflags := hmem'.2
    simp only [Bool.and_eq_true, decide_eq_true_eq] at hflags
    refine ⟨?_, hmem'.1, hflags.1, hflags.2, ?_⟩
    · simp [findActualFile, ha, hf, hm]
    · intro x hx hxf hxs
      exact hmax x (List.mem_filter.mpr ⟨hx, by simp [hxf, hxs]⟩)
  · intro p r₀ hp hr
    rw [hp]
    unfold applyDiscovery
    constructor
    · simp [lookup_updateT, hr]
    · simp [lookup_updateT]
  · intro hn r₀ hr
    rw [hn]
    unfold applyDiscovery
    simp [lookup_updateT, hr]

/-- Witness for C1: the expected file is present, so discovery returns it
and the record completes. -/
theorem c1_witness :
    findActualFile [{ name := "t_vid.mp4", isFile := true, size := 10, mtime := 5 }]
        (expectedOutput "t_vid.mp4" false) "vid" = some "downloads/t_vid.mp4" ∧
    List.lookup "vid"
        (applyDiscovery "vid"
          (findActualFile [{ name := "t_vid.mp4", isFile := true, size := 10, mtime := 5 }]
            (expectedOutput "t_vid.mp4" false) "vid")
          3 [("vid", initialProgress 0)] []).1 =
      some { initialProgress 0 with
             filename := some (basename "downloads/t_vid.mp4"),
             filepath := some "downloads/t_vid.mp4",
             status := "completed", end_time := some 3 } :=
  ⟨(c1_download_file_discovery [{ name := "t_vid.mp4", isFile := true, size := 10, mtime := 5 }]
      "t_vid.mp4" "vid" false [("vid", initialProgress 0)] [] 3).1 (by decide),
   ((c1_download_file_discovery [{ name := "t_vid.mp4", isFile := true, size := 10, mtime := 5 }]
      "t_vid.mp4" "vid" false [("vid", initialProgress 0)] [] 3).2.2.2.1
     "downloads/t_vid.mp4" (initialProgress 0) (by decide) rfl).1⟩
